import Mathlib

/-!
Verification of the text-statistics engine in src/src/App.vue.

JavaScript strings are sequences of UTF-16 code units, and every regular
expression in the source is written WITHOUT the u flag, so the regex engine
works code unit by code unit.  We therefore embed a JS string as a list of
natural numbers, each standing for one UTF-16 code unit.  A code point on a
supplementary plane (at or above U+10000) appears as a surrogate pair: two
units in the ranges 0xD800..0xDBFF and 0xDC00..0xDFFF.

Notably, in the class of the ideograph regex on line 37, written with
five-hex-digit escapes such as backslash-u20000, without the u flag an
escape of that shape is read as the four-hex-digit escape for 0x2000
followed by a literal digit 0, so the intended supplementary range from
0x20000 to 0x2a6df is parsed as the atom 0x2000, the range from 0x30 (the
digit 0) to 0x2a6d, and the literal 0x66 (the letter f).  The embedding
below transcribes that ECMAScript parse token by token.
-/

/-- A JavaScript string: a finite sequence of UTF-16 code units. -/
abbrev JSString := List Nat

/-- Code-unit class of the ideograph regex on line 37 of App.vue, as the
ECMAScript engine actually parses it without the u flag (see the header
comment).  Each disjunct below is one parsed class element, in source
order. -/
def chineseCharClass (c : Nat) : Bool :=
  (0x4e00 ≤ c && c ≤ 0x9fff) ||   -- range 0x4e00-0x9fff
  (0x3400 ≤ c && c ≤ 0x4dbf) ||   -- range 0x3400-0x4dbf
  c == 0x2000 ||                   -- atom 0x2000, the stranded head of u20000
  (0x30 ≤ c && c ≤ 0x2a6d) ||     -- range digit 0 to 0x2a6d
  c == 0x66 ||                     -- literal f, the stranded tail of u2a6df
  c == 0x2a70 ||                   -- atom 0x2a70
  (0x30 ≤ c && c ≤ 0x2b73) ||     -- range digit 0 to 0x2b73
  c == 0x66 ||                     -- literal f
  c == 0x2b74 ||                   -- atom 0x2b74
  (0x30 ≤ c && c ≤ 0x2b81) ||     -- range digit 0 to 0x2b81
  c == 0x66 ||                     -- literal f
  c == 0x2b82 ||                   -- atom 0x2b82
  (0x30 ≤ c && c ≤ 0x2cea) ||     -- range digit 0 to 0x2cea
  c == 0x66 ||                     -- literal f
  (0xf900 ≤ c && c ≤ 0xfaff) ||   -- range 0xf900-0xfaff
  c == 0x2f80 ||                   -- atom 0x2f80
  (0x30 ≤ c && c ≤ 0x2fa1) ||     -- range digit 0 to 0x2fa1
  c == 0x66                        -- literal f

/-- Class [a-zA-Z] of the regexes on lines 40 and 43. -/
def latinLetterClass (c : Nat) : Bool :=
  (0x61 ≤ c && c ≤ 0x7a) || (0x41 ≤ c && c ≤ 0x5a)

/-- Class [0-9] of the regex on line 46. -/
def digitClass (c : Nat) : Bool :=
  0x30 ≤ c && c ≤ 0x39

/-- The code units enumerated in the Chinese-punctuation class on line 49 of
App.vue, in source order.  The source file contains ASCII straight quotes
U+0022 U+0022 U+0027 U+0027 at the quote positions (each listed twice),
not the curly quotation marks U+201C U+201D U+2018 U+2019. -/
def chinesePunctChars : List Nat :=
  [0xff0c, 0x3002, 0xff01, 0xff1f, 0x3001, 0xff1b, 0xff1a,
   0x22, 0x22, 0x27, 0x27,
   0xff08, 0xff09, 0x3010, 0x3011, 0x300a, 0x300b, 0x2026, 0x2014, 0xff5e, 0xb7]

/-- Chinese-punctuation class of the regex on line 49. -/
def chinesePunctClass (c : Nat) : Bool :=
  chinesePunctChars.contains c

/-- The code units enumerated in the English-punctuation class on line 52 of
App.vue, in source order: , . ! ? ; : apostrophe quote ( ) [ ] brace brace
< > / backslash @ # $ % ^ & * - _ + = | backquote ~ . -/
def englishPunctChars : List Nat :=
  [0x2c, 0x2e, 0x21, 0x3f, 0x3b, 0x3a, 0x27, 0x22, 0x28, 0x29,
   0x5b, 0x5d, 0x7b, 0x7d, 0x3c, 0x3e, 0x2f, 0x5c, 0x40, 0x23,
   0x24, 0x25, 0x5e, 0x26, 0x2a, 0x2d, 0x5f, 0x2b, 0x3d, 0x7c,
   0x60, 0x7e]

/-- English-punctuation class of the regex on line 52. -/
def englishPunctClass (c : Nat) : Bool :=
  englishPunctChars.contains c

/-- The ECMAScript whitespace class backslash-s used on lines 55 and 61:
tab, line feed, vertical tab, form feed, carriage return, space, no-break
space, ogham space mark, U+2000..U+200A, line separator, paragraph
separator, narrow no-break space, medium mathematical space, ideographic
space, and the byte-order mark. -/
def spaceClass (c : Nat) : Bool :=
  c == 0x09 || c == 0x0a || c == 0x0b || c == 0x0c || c == 0x0d ||
  c == 0x20 || c == 0xa0 || c == 0x1680 ||
  (0x2000 ≤ c && c ≤ 0x200a) ||
  c == 0x2028 || c == 0x2029 || c == 0x202f || c == 0x205f ||
  c == 0x3000 || c == 0xfeff

/-- Class of the regex on line 58: exactly the line-feed unit U+000A. -/
def lineBreakClass (c : Nat) : Bool :=
  c == 0x0a

/-- Embeds text.match(/[class]/g) || [] for a class of single code units:
the list of all units of the string that lie in the class, in order. -/
def matchClass (p : Nat → Bool) (s : JSString) : List Nat :=
  s.filter p

/-- Embeds text.match(/[class]+/g) || [] for a class of single code units
with a greedy plus: the list of maximal contiguous runs of units in the
class, in order.  The regex engine finds the leftmost match, extends it
greedily, and resumes after it, which yields exactly these runs. -/
def matchPlus (p : Nat → Bool) : JSString → List JSString
  | [] => []
  | [c] => if p c then [[c]] else []
  | c :: c2 :: cs =>
    if p c then
      if p c2 then
        match matchPlus p (c2 :: cs) with
        | r :: rest => (c :: r) :: rest
        | [] => [[c]]
      else [c] :: matchPlus p (c2 :: cs)
    else matchPlus p (c2 :: cs)

/-- The StatsResult record computed on lines 63 to 74 of App.vue. -/
structure StatsResult where
  chineseChars : Nat
  englishWords : Nat
  englishLetters : Nat
  numbers : Nat
  chinesePunctuation : Nat
  englishPunctuation : Nat
  spaces : Nat
  lineBreaks : Nat
  totalChars : Nat
  totalCharsNoSpace : Nat
  deriving DecidableEq

/-- The computed property stats of App.vue (lines 31 to 75).  The guard
if (!pdfText.value) return null makes the empty string, which is falsy in
JavaScript, yield null; otherwise every field is computed from the text by
the regexes embedded above.  totalChars is text.length, the UTF-16
code-unit count, and totalCharsNoSpace is the length of the text after
replace of every whitespace unit by nothing. -/
def stats (pdfText : JSString) : Option StatsResult :=
  if pdfText.isEmpty then none
  else some ⟨
    (matchClass chineseCharClass pdfText).length,
    (matchPlus latinLetterClass pdfText).length,
    (matchClass latinLetterClass pdfText).length,
    (matchClass digitClass pdfText).length,
    (matchClass chinesePunctClass pdfText).length,
    (matchClass englishPunctClass pdfText).length,
    (matchClass spaceClass pdfText).length,
    (matchClass lineBreakClass pdfText).length,
    pdfText.length,
    (pdfText.filter (fun c => !spaceClass c)).length⟩

/-- The page-assembly loop of handleFile (lines 96 to 103): starting from
the empty string, append each page text followed by one line feed. -/
def assemble (pages : List JSString) : JSString :=
  pages.foldl (fun fullText pageText => fullText ++ pageText ++ [0x0a]) []

/-- The reactive state of the component that handleFile touches:
fileName, pdfText, errorMessage and isLoading. -/
structure AppState where
  fileName : String
  pdfText : JSString
  errorMessage : String
  isLoading : Bool
  deriving DecidableEq

/-- An uploaded file as handleFile observes it: its name, its MIME type
(file.type), and the outcome of the external pdf.js extraction, modelled
as the ordered page texts on success and none on a parse failure. -/
structure FileInput where
  name : String
  mimeType : String
  pages : Option (List JSString)
  deriving DecidableEq

/-- The state transition of handleFile (lines 78 to 109).  A file whose
MIME type is not application/pdf only sets the error message and returns.
Otherwise the error is cleared, the file name stored, the pages assembled
into pdfText; when extraction fails, pdfText stays the empty string set
before parsing and the parse-failure message is shown.  isLoading is true
only during the await and is false again in every final state. -/
def handleFile (st : AppState) (file : FileInput) : AppState :=
  if file.mimeType ≠ "application/pdf" then
    ⟨st.fileName, st.pdfText, "请上传 PDF 文件", st.isLoading⟩
  else
    match file.pages with
    | some pageTexts => ⟨file.name, assemble pageTexts, "", false⟩
    | none => ⟨file.name, [], "PDF 解析失败，请确保文件未损坏", false⟩

/-- Modelled from the spec (section 4.2): the ideograph predicate as the
eight closed code-point intervals the spec enumerates.  This is the
spec-side comparator for the classifier; it is not what the code computes. -/
def specIdeograph (cp : Nat) : Bool :=
  (0x4e00 ≤ cp && cp ≤ 0x9fff) || (0x3400 ≤ cp && cp ≤ 0x4dbf) ||
  (0x20000 ≤ cp && cp ≤ 0x2a6df) || (0x2a700 ≤ cp && cp ≤ 0x2b73f) ||
  (0x2b740 ≤ cp && cp ≤ 0x2b81f) || (0x2b820 ≤ cp && cp ≤ 0x2ceaf) ||
  (0xf900 ≤ cp && cp ≤ 0xfaff) || (0x2f800 ≤ cp && cp ≤ 0x2fa1f)

/-- Spec-side English punctuation set, transcribed from the enumeration in
the claim: , . ! ? ; : apostrophe quote ( ) [ ] brace brace < > /
backslash @ # $ % ^ & * - _ + = | backquote ~ . -/
def specEnglishPunctChars : List Nat :=
  [0x2c, 0x2e, 0x21, 0x3f, 0x3b, 0x3a, 0x27, 0x22, 0x28, 0x29,
   0x5b, 0x5d, 0x7b, 0x7d, 0x3c, 0x3e, 0x2f, 0x5c, 0x40, 0x23,
   0x24, 0x25, 0x5e, 0x26, 0x2a, 0x2d, 0x5f, 0x2b, 0x3d, 0x7c,
   0x60, 0x7e]

/-- The Chinese punctuation set the code actually uses, without the
duplicated quote entries: the claimed set with the curly quotation marks
U+201C U+201D U+2018 U+2019 replaced by ASCII U+0022 and U+0027. -/
def amendedChinesePunctChars : List Nat :=
  [0xff0c, 0x3002, 0xff01, 0xff1f, 0x3001, 0xff1b, 0xff1a,
   0x22, 0x27,
   0xff08, 0xff09, 0x3010, 0x3011, 0x300a, 0x300b, 0x2026, 0x2014, 0xff5e, 0xb7]

/-- The TextBlob of the scenario in claim C4: Hello, a space, the two
ideographs U+4E16 U+754C, an ASCII comma, a space, 123 and an exclamation
mark -- 14 code units. -/
def helloBlob : JSString :=
  [0x48, 0x65, 0x6c, 0x6c, 0x6f, 0x20, 0x4e16, 0x754c,
   0x2c, 0x20, 0x31, 0x32, 0x33, 0x21]

/-- The mixed-whitespace TextBlob of claim C8: a, tab, b, line feed, c. -/
def mixedWsBlob : JSString :=
  [0x61, 0x09, 0x62, 0x0a, 0x63]

/-- A single supplementary-plane ideograph, U+20000, as the surrogate pair
it becomes in a JavaScript string. -/
def suppIdeographBlob : JSString :=
  [0xd840, 0xdc00]

/-- A concrete prior state used to witness the frame property of
handleFile. -/
def stExample : AppState :=
  ⟨"old.pdf", [0x61], "", false⟩

/-- A concrete non-PDF upload used to witness the frame property of
handleFile. -/
def fExample : FileInput :=
  ⟨"notes.txt", "text/plain", none⟩

/-- Helper: the length of a single-unit-class match list is a countP. -/
lemma matchClass_length (p : Nat → Bool) (s : JSString) :
    (matchClass p s).length = s.countP p := by
  simp [matchClass, List.countP_eq_length_filter]

/-- Helper: a match list of a plus-regex on a string whose first unit is in
the class starts with a run beginning at that unit. -/
lemma matchPlus_cons_of_pos (p : Nat → Bool) :
    ∀ (cs : List Nat) (c : Nat), p c = true →
      ∃ t rest, matchPlus p (c :: cs) = (c :: t) :: rest := by
  intro cs
  induction cs with
  | nil =>
    intro c hc
    exact ⟨[], [], by simp [matchPlus, hc]⟩
  | cons c2 cs2 ih =>
    intro c hc
    cases h2 : p c2 with
    | false =>
      exact ⟨[], matchPlus p (c2 :: cs2), by simp [matchPlus, hc, h2]⟩
    | true =>
      obtain ⟨t, rest, heq⟩ := ih c2 h2
      exact ⟨c2 :: t, rest, by simp [matchPlus, hc, h2, heq]⟩

/-- Helper: the runs found by a plus-regex carry every unit of the class
exactly once, so their total length is the single-unit count. -/
lemma matchPlus_sum_length (p : Nat → Bool) :
    ∀ s : List Nat, ((matchPlus p s).map List.length).sum = s.countP p := by
  intro s
  induction s with
  | nil => simp [matchPlus]
  | cons c cs ih =>
    cases cs with
    | nil => cases hc : p c <;> simp [matchPlus, hc, List.countP_cons]
    | cons c2 cs2 =>
      rw [List.countP_cons, ← ih]
      cases hc : p c with
      | false => simp [matchPlus, hc]
      | true =>
        cases h2 : p c2 with
        | false => simp [matchPlus, hc, h2]; omega
        | true =>
          obtain ⟨t, rest, heq⟩ := matchPlus_cons_of_pos p cs2 c2 h2
          simp [matchPlus, hc, h2, heq]
          omega

/-- Helper: every run found by a plus-regex is nonempty. -/
lemma matchPlus_mem_pos (p : Nat → Bool) :
    ∀ s : List Nat, ∀ r ∈ matchPlus p s, 0 < r.length := by
  intro s
  induction s with
  | nil => simp [matchPlus]
  | cons c cs ih =>
    cases cs with
    | nil =>
      intro r hr
      cases hc : p c <;> simp [matchPlus, hc] at hr
      subst hr; simp
    | cons c2 cs2 =>
      intro r hr
      cases hc : p c with
      | false =>
        exact ih r (by simpa [matchPlus, hc] using hr)
      | true =>
        cases h2 : p c2 with
        | false =>
          simp [matchPlus, hc, h2] at hr
          rcases hr with rfl | hr
          · simp
          · exact ih r hr
        | true =>
          obtain ⟨t, rest, heq⟩ := matchPlus_cons_of_pos p cs2 c2 h2
          simp [matchPlus, hc, h2, heq] at hr
          rcases hr with rfl | hr
          · simp
          · exact ih r (by rw [heq]; exact List.mem_cons_of_mem _ hr)

/-- Helper: a list of positive naturals is no longer than its sum, with
equality exactly when every entry is one. -/
lemma length_le_sum_of_mem_pos :
    ∀ L : List Nat, (∀ x ∈ L, 0 < x) →
      L.length ≤ L.sum ∧ (L.length = L.sum ↔ ∀ x ∈ L, x = 1) := by
  intro L
  induction L with
  | nil => intro _h; simp
  | cons a L ih =>
    intro h
    have ha : 0 < a := h a (List.mem_cons_self a L)
    have hL : ∀ x ∈ L, 0 < x := fun x hx => h x (List.mem_cons_of_mem a hx)
    obtain ⟨h1, h2⟩ := ih hL
    refine ⟨by simp [List.sum_cons]; omega, ?_, ?_⟩
    · intro he x hx
      have he2 : a + L.sum = L.length + 1 := by
        simpa [List.sum_cons, Nat.add_comm] using he.symm
      rcases List.mem_cons.mp hx with rfl | hx2
      · omega
      · exact h2.mp (by omega) x hx2
    · intro hall
      have ha1 : a = 1 := hall a (List.mem_cons_self a L)
      have hLs : L.length = L.sum := h2.mpr (fun x hx => hall x (List.mem_cons_of_mem a hx))
      simp [List.sum_cons]
      omega

/-- Helper: removing the units of a class and keeping them split the length
of the string exactly. -/
lemma length_filter_not_add (p : Nat → Bool) :
    ∀ s : JSString, (s.filter (fun c => !p c)).length + (matchClass p s).length = s.length := by
  intro s
  induction s with
  | nil => rfl
  | cons c cs ih =>
    simp only [matchClass] at ih ⊢
    cases hc : p c <;> simp [List.filter_cons, hc] <;> omega

/-- Helper: the assembly fold appends the flattened terminated pages to the
accumulator. -/
lemma assemble_foldl (pages : List JSString) :
    ∀ acc : JSString,
      pages.foldl (fun fullText pageText => fullText ++ pageText ++ [0x0a]) acc
        = acc ++ (pages.map (fun page => page ++ [0x0a])).flatten := by
  induction pages with
  | nil => intro acc; simp
  | cons pg pgs ih =>
    intro acc
    rw [List.foldl_cons, ih]
    simp [List.append_assoc]

/-- Helper: the Chinese-punctuation class of the source agrees pointwise
with the deduplicated amended set. -/
lemma chinesePunct_pointwise (c : Nat) :
    chinesePunctClass c = amendedChinesePunctChars.contains c := by
  simp [chinesePunctClass, chinesePunctChars, amendedChinesePunctChars]

/-- C1, counterexample: on the empty TextBlob the engine returns the absent
state none, not an all-zero CategoryCounts record, because the empty string
is falsy in the guard if (!pdfText.value) return null. -/
theorem stats_empty_is_absent : stats [] = none := rfl

/-- C1, amended: the engine returns the absent state exactly when the
TextBlob is the empty string; a CategoryCounts record exists for every
non-empty TextBlob.  The code keeps a single string and cannot distinguish
an absent TextBlob from an empty one. -/
theorem stats_absent_iff_empty (s : JSString) : stats s = none ↔ s = [] := by
  rcases s with _ | ⟨c, cs⟩
  · simp [stats]
  · simp [stats, List.isEmpty]

/-- C2: the ideograph regex, lacking the u flag, counts the digit zero
U+0030 as an ideograph although it lies in none of the eight claimed
intervals, and fails to count the supplementary-plane ideograph U+20000
(stored as the surrogate pair 0xD840 0xDC00) although the claimed
intervals contain it. -/
theorem chineseChars_class_misparsed :
    (matchClass chineseCharClass [0x30]).length = 1 ∧
    specIdeograph 0x30 = false ∧
    (matchClass chineseCharClass suppIdeographBlob).length = 0 ∧
    specIdeograph 0x20000 = true := by
  decide

/-- C3: on the TextBlob holding the single supplementary-plane ideograph
U+20000 the engine reports totalChars = 2, the UTF-16 code-unit length of
the surrogate pair, and chineseChars = 0, because neither surrogate unit
matches the misparsed class; the claim requires 1 and 1. -/
theorem stats_surrogate_pair_double_count :
    stats suppIdeographBlob = some ⟨0, 0, 0, 0, 0, 0, 0, 0, 2, 2⟩ := by
  decide

/-- C4, counterexample: on the scenario TextBlob the engine reports
chineseChars = 10, englishPunctuation = 2 and chinesePunctuation = 0, so
none of the claimed values 2, 1 and 1 for those three fields holds. -/
theorem stats_hello_scenario_fails :
    (stats helloBlob).map StatsResult.chineseChars ≠ some 2 ∧
    (stats helloBlob).map StatsResult.englishPunctuation ≠ some 1 ∧
    (stats helloBlob).map StatsResult.chinesePunctuation ≠ some 1 := by
  decide

/-- C4, amended: on the scenario TextBlob the engine returns
chineseChars = 10 (the misparsed class also matches the five Latin letters
and the three digits), englishWords = 1, englishLetters = 5, numbers = 3,
chinesePunctuation = 0 (the comma is ASCII), englishPunctuation = 2 (the
comma and the exclamation mark), spaces = 2, lineBreaks = 0,
totalChars = 14 and totalCharsNoSpace = 12. -/
theorem stats_hello_scenario :
    stats helloBlob = some ⟨10, 1, 5, 3, 0, 2, 2, 0, 14, 12⟩ := by
  decide

/-- C5: in every CategoryCounts record the engine produces,
totalCharsNoSpace plus spaces equals totalChars, hence totalCharsNoSpace
is exactly totalChars minus spaces; the field is computed by removing the
whitespace units and measuring what remains, independent of the other
counts. -/
theorem totalCharsNoSpace_exact (s : JSString) (r : StatsResult)
    (h : stats s = some r) :
    r.totalCharsNoSpace + r.spaces = r.totalChars ∧
    r.totalCharsNoSpace = r.totalChars - r.spaces := by
  rcases s with _ | ⟨c, cs⟩
  · simp [stats] at h
  · rw [stats] at h
    simp only [List.isEmpty, Bool.false_eq_true, if_false, Option.some.injEq] at h
    subst h
    dsimp only
    have := length_filter_not_add spaceClass (c :: cs)
    simp only [matchClass] at this ⊢
    omega

/-- Witness for C5 at the concrete TextBlob a-space. -/
theorem totalCharsNoSpace_exact_witness :
    (stats [0x61, 0x20] = some ⟨1, 1, 1, 0, 0, 0, 1, 0, 2, 1⟩) ∧
    ((1 : Nat) + 1 = 2 ∧ (1 : Nat) = 2 - 1) :=
  ⟨by decide, totalCharsNoSpace_exact [0x61, 0x20] ⟨1, 1, 1, 0, 0, 0, 1, 0, 2, 1⟩ (by decide)⟩

/-- C6: the assembler emits the pages in their given order, each followed
by exactly one line feed, including the last; two pages A and B yield
A, line feed, B, line feed, and no pages yield the empty TextBlob. -/
theorem assemble_joins_pages :
    (∀ pages : List JSString,
        assemble pages = (pages.map (fun page => page ++ [0x0a])).flatten) ∧
    assemble [[0x41], [0x42]] = [0x41, 0x0a, 0x42, 0x0a] ∧
    assemble [] = [] := by
  refine ⟨?_, by decide, rfl⟩
  intro pages
  rw [assemble, assemble_foldl pages []]
  simp

/-- C7, counterexample: the source class uses ASCII straight quotes, so the
left curly quotation mark U+201C of the claimed set is not counted as
Chinese punctuation, while the ASCII quote U+0022, outside the claimed
set, is. -/
theorem chinesePunct_quotes_differ :
    (matchClass chinesePunctClass [0x201c]).length ≠ 1 ∧
    (matchClass chinesePunctClass [0x22]).length ≠ 0 := by
  decide

/-- C7, amended: chinesePunctuation counts exactly the code units of the
fixed source set, which is the claimed set with the four curly quotation
marks replaced by the ASCII quote U+0022 and apostrophe U+0027, and
englishPunctuation counts exactly the claimed fixed ASCII set; the two
ASCII quote characters therefore belong to both sets. -/
theorem punctuation_sets_exact (s : JSString) :
    (matchClass chinesePunctClass s).length
        = s.countP (fun c => amendedChinesePunctChars.contains c) ∧
    (matchClass englishPunctClass s).length
        = s.countP (fun c => specEnglishPunctChars.contains c) := by
  constructor
  · rw [matchClass_length]
    exact List.countP_congr (fun c _ => by rw [chinesePunct_pointwise])
  · rw [matchClass_length]
    exact List.countP_congr (fun c _ => Iff.rfl)

/-- C8: the line-break count never exceeds the whitespace count; a carriage
return U+000D is whitespace but not a line break; and the mixed-whitespace
scenario a tab b line-feed c yields two whitespace units and one line
break. -/
theorem lineBreaks_within_whitespace :
    (∀ s : JSString,
        (matchClass lineBreakClass s).length ≤ (matchClass spaceClass s).length) ∧
    (matchClass lineBreakClass [0x0d]).length = 0 ∧
    (matchClass spaceClass [0x0d]).length = 1 ∧
    (matchClass spaceClass mixedWsBlob).length = 2 ∧
    (matchClass lineBreakClass mixedWsBlob).length = 1 := by
  refine ⟨?_, by decide, by decide, by decide, by decide⟩
  intro s
  rw [matchClass_length, matchClass_length]
  apply List.countP_mono_left
  intro c _ hc
  have : c = 0x0a := by simpa [lineBreakClass] using hc
  subst this
  decide

/-- C9: the number of maximal Latin runs never exceeds the number of Latin
letters, and the two counts are equal exactly when every maximal Latin run
has length one. -/
theorem latinWords_le_latinLetters (s : JSString) :
    (matchPlus latinLetterClass s).length ≤ (matchClass latinLetterClass s).length ∧
    ((matchPlus latinLetterClass s).length = (matchClass latinLetterClass s).length ↔
      ∀ r ∈ matchPlus latinLetterClass s, r.length = 1) := by
  have hsum := matchPlus_sum_length latinLetterClass s
  have hpos : ∀ x ∈ (matchPlus latinLetterClass s).map List.length, 0 < x := by
    intro x hx
    obtain ⟨r, hr, rfl⟩ := List.mem_map.mp hx
    exact matchPlus_mem_pos latinLetterClass s r hr
  obtain ⟨h1, h2⟩ := length_le_sum_of_mem_pos _ hpos
  rw [List.length_map] at h1 h2
  rw [matchClass_length, ← hsum]
  refine ⟨h1, h2.trans ?_⟩
  constructor
  · intro hall r hr
    exact hall r.length (List.mem_map.mpr ⟨r, hr, rfl⟩)
  · intro hall x hx
    obtain ⟨r, hr, rfl⟩ := List.mem_map.mp hx
    exact hall r hr

/-- C10: when the submitted file is not of MIME type application/pdf,
handleFile only sets the error message: the stored file name, the TextBlob
and the loading flag are unchanged, so the displayed statistics are those
of the previously held TextBlob. -/
theorem handleFile_reject_preserves_results (st : AppState) (file : FileInput)
    (h : file.mimeType ≠ "application/pdf") :
    (handleFile st file).fileName = st.fileName ∧
    (handleFile st file).pdfText = st.pdfText ∧
    (handleFile st file).isLoading = st.isLoading ∧
    (handleFile st file).errorMessage = "请上传 PDF 文件" ∧
    stats (handleFile st file).pdfText = stats st.pdfText := by
  unfold handleFile
  rw [if_pos h]
  exact ⟨rfl, rfl, rfl, rfl, rfl⟩

/-- Witness for C10 at a concrete prior state and a concrete plain-text
upload. -/
theorem handleFile_reject_preserves_results_witness :
    (handleFile stExample fExample).fileName = stExample.fileName ∧
    (handleFile stExample fExample).pdfText = stExample.pdfText ∧
    (handleFile stExample fExample).isLoading = stExample.isLoading ∧
    (handleFile stExample fExample).errorMessage = "请上传 PDF 文件" ∧
    stats (handleFile stExample fExample).pdfText = stats stExample.pdfText :=
  handleFile_reject_preserves_results stExample fExample (by decide)
